import Mathlib

/-!
Shallow embedding of `md_jinja/render_md.py` (template-resolution engine):
fragment inclusion (`include_external_files`), variable-usage scanning
(`find_template_variables`), rendering (`render_template`), directory
processing (`process_directory`), variable loading (`load_variables`) and
the orchestration (`run`).

Text is modelled as `List Char` (Python `str`).  The filesystem is a finite
association list from path strings to file contents; `open(p).read()`
becomes `fsRead`, with `none` standing for `FileNotFoundError`.  The
unbounded recursion of `include_external_files` is indexed by an explicit
`fuel : Nat` bounding the nesting depth of recursive inclusion; exhausting
it yields the distinguished `RenderError.outOfFuel`, which models
non-termination of the Python code.
-/

/-- Model of `os.path.dirname` for POSIX paths: everything before the final `/`
(`""` when there is no `/`; a head made only of slashes is kept whole,
otherwise trailing slashes are stripped). -/
def dirname (p : String) : String :=
  let rev := p.data.reverse
  let revHead := rev.dropWhile (fun c => c ≠ '/')
  let head := revHead.reverse
  if head.isEmpty then ""
  else if head.all (fun c => c = '/') then String.mk head
  else String.mk ((head.reverse.dropWhile (fun c => c = '/')).reverse)

/-- Model of `s.startswith(pre)` (computed on the character lists so that the
kernel can evaluate it). -/
def strStartsWith (s pre : String) : Bool :=
  pre.data.isPrefixOf s.data

/-- Model of `s.endswith(suf)` (computed on the character lists so that the
kernel can evaluate it). -/
def strEndsWith (s suf : String) : Bool :=
  suf.data.reverse.isPrefixOf s.data.reverse

/-- Model of `os.path.join(a, b)` for POSIX paths and two arguments: an absolute `b`
replaces `a`; otherwise the two are joined with exactly one `/`. -/
def joinPath (a b : String) : String :=
  if strStartsWith b "/" then b
  else if a = "" || strEndsWith a "/" then a ++ b
  else a ++ "/" ++ b

/-- Model of `p.split('/')`: maximal runs between slashes, empty runs included. -/
def splitOnSlashAux (cur : List Char) : List Char → List String
  | [] => [String.mk cur.reverse]
  | c :: rest =>
    if c = '/' then String.mk cur.reverse :: splitOnSlashAux [] rest
    else splitOnSlashAux (c :: cur) rest

/-- Path components, empty components dropped (as `p.split('/')` filtered
by truthiness inside `posixpath.relpath`). -/
def splitParts (p : String) : List String :=
  (splitOnSlashAux [] p.data).filter (fun s => s ≠ "")

/-- Length of the common prefix of two component lists. -/
def commonPrefixLen : List String → List String → Nat
  | a :: as, b :: bs => if a = b then commonPrefixLen as bs + 1 else 0
  | _, _ => 0

/-- Model of `'/'.join(parts)`. -/
def joinWithSlash : List String → String
  | [] => ""
  | [s] => s
  | s :: rest => s ++ "/" ++ joinWithSlash rest

/-- Model of `os.path.relpath(path, start)` for already-normalized paths (the
`abspath` step, which would prepend the working directory to both
arguments alike, is omitted from the model). -/
def relpath (path start : String) : String :=
  let pl := splitParts path
  let sl := splitParts start
  let i := commonPrefixLen sl pl
  let rel := List.replicate (sl.length - i) ".." ++ pl.drop i
  if rel.isEmpty then "." else joinWithSlash rel

/-- The filesystem: a finite map from path to file content. -/
abbrev FS := List (String × List Char)

/-- Model of `open(p).read()`; `none` models `FileNotFoundError`. -/
def fsRead (fs : FS) (p : String) : Option (List Char) :=
  (fs.find? (fun e => e.1 = p)).map (fun e => e.2)

/-- One segment of template text as decomposed by `re.sub` with the
pattern for fragment inclusion: either a literal character or the
captured path of one `\x7b\x7b\x7b path \x7d\x7d\x7d` match. -/
inductive Frag where
  | lit (c : Char)
  | ref (path : List Char)
deriving DecidableEq, Repr

/-- The trailing part of the fragment pattern: zero or more spaces
followed by three closing braces.  Returns the text after the braces. -/
def fragClose (cs : List Char) : Option (List Char) :=
  let cs' := cs.dropWhile (fun c => c = ' ')
  if cs'.take 3 = ['}', '}', '}'] then some (cs'.drop 3) else none

/-- The lazy capture group of the fragment pattern: the shortest run of
non-newline characters after which `fragClose` succeeds (regex
`(.*?) *` followed by the closing braces). -/
def fragContent (acc : List Char) : List Char → Option (List Char × List Char)
  | [] =>
    match fragClose [] with
    | some rest => some (acc.reverse, rest)
    | none => none
  | c :: rest =>
    match fragClose (c :: rest) with
    | some rest' => some (acc.reverse, rest')
    | none => if c = '\n' then none else fragContent (c :: acc) rest

/-- Matching the fragment pattern just after its three opening braces:
greedy leading spaces, then the lazy capture.  Returns the captured path
and the text after the match. -/
def fragMatch (cs : List Char) : Option (List Char × List Char) :=
  fragContent [] (cs.dropWhile (fun c => c = ' '))

/-- Left-to-right, non-overlapping scan of the fragment-inclusion pattern,
as `re.sub` performs it.  The `Nat` argument bounds the number of steps;
each step consumes at least one character, so `cs.length` always
suffices (see `scanFrags`). -/
def scanFragsF : Nat → List Char → List Frag
  | 0, _ => []
  | _ + 1, [] => []
  | fuel + 1, c :: rest =>
    match rest with
    | c2 :: c3 :: rest2 =>
      if c = '{' ∧ c2 = '{' ∧ c3 = '{' then
        match fragMatch rest2 with
        | some (r, rest') => .ref r :: scanFragsF fuel rest'
        | none => .lit c :: scanFragsF fuel rest
      else .lit c :: scanFragsF fuel rest
    | [c2] => .lit c :: scanFragsF fuel [c2]
    | [] => .lit c :: scanFragsF fuel []

/-- Decompose template text into literal characters and fragment
references, left to right and non-overlapping. -/
def scanFrags (cs : List Char) : List Frag :=
  scanFragsF cs.length cs

/-- The captured path of a reference segment, `none` for a literal. -/
def fragRef? : Frag → Option (List Char)
  | .ref r => some r
  | .lit _ => none

/-- The fragment reference paths appearing in a piece of text. -/
def refsOf (cs : List Char) : List (List Char) :=
  (scanFrags cs).filterMap fragRef?

/-- Whether the text contains any fragment-inclusion syntax (a match of
the `re.sub` pattern). -/
def hasFragmentRef (cs : List Char) : Bool :=
  !(refsOf cs).isEmpty

/-- The errors of the pipeline.  `missingTemplate`/`missingFragment` are
the two re-raised `FileNotFoundError`s; `fileNotFound` is an uncaught
one; `invalidDataFile` is the YAML parse error (whose message names the
offending file because pyyaml marks carry the stream name);
`typeError` is the path-less `TypeError` from `dict.update` applied to a
non-iterable (`None`, a number); `valueError` is the path-less
`ValueError` from `dict.update` applied to an iterable whose elements
are not key/value pairs (a non-empty scalar string);
`notADirectory` is `NotADirectoryError`; `outOfFuel` marks exhaustion
of the recursion budget, i.e. non-termination
(`RecursionError`). -/
inductive RenderError where
  | missingTemplate (path : String)
  | missingFragment (path : String)
  | fileNotFound (path : String)
  | invalidDataFile (path : String)
  | typeError
  | valueError
  | notADirectory (path : String)
  | outOfFuel
deriving DecidableEq, Repr

/-- Which errors model Python's `FileNotFoundError`: the class caught by
the `except` clause of `replace_with_file_content` (`outOfFuel` models
`RecursionError`, which that clause does not catch). -/
def isFileNotFoundError : RenderError → Bool
  | .missingTemplate _ => true
  | .missingFragment _ => true
  | .fileNotFound _ => true
  | _ => false

instance {ε α : Type} [DecidableEq ε] [DecidableEq α] : DecidableEq (Except ε α) := fun a b =>
  match a, b with
  | .ok x, .ok y =>
    if h : x = y then isTrue (by rw [h]) else isFalse (by intro hc; cases hc; exact h rfl)
  | .error x, .error y =>
    if h : x = y then isTrue (by rw [h]) else isFalse (by intro hc; cases hc; exact h rfl)
  | .ok _, .error _ => isFalse (by intro hc; cases hc)
  | .error _, .ok _ => isFalse (by intro hc; cases hc)

/-- Resolve a segment list: literals pass through; each reference is
joined against `dir`, read, and replaced by `recurse`-d content
(`re.sub` calling `replace_with_file_content` left to right, the first
raised error propagating).  The recursive resolution sits inside the
`try`/`except FileNotFoundError` of `replace_with_file_content`, so a
`FileNotFoundError` raised by nested resolution is caught and re-raised
naming this level's resolved path `p`; other errors
(`RecursionError`) pass through. -/
def resolveSegs (recurse : List Char → String → Except RenderError (List Char))
    (fs : FS) (dir : String) : List Frag → Except RenderError (List Char)
  | [] => .ok []
  | .lit c :: rest => (resolveSegs recurse fs dir rest).map (fun t => c :: t)
  | .ref r :: rest =>
    let p := joinPath dir (String.mk r)
    match fsRead fs p with
    | none => .error (.missingFragment p)
    | some content =>
      match recurse content p with
      | .error e =>
        if isFileNotFoundError e then .error (.missingFragment p) else .error e
      | .ok inner => do
        let tail ← resolveSegs recurse fs dir rest
        .ok (inner ++ tail)

/-- Model of `include_external_files(template_content, template_path)`: replace
each fragment reference by the recursively resolved content of the file
at `os.path.join(os.path.dirname(template_path), ref)`, the resolved
file's own path becoming the base for its nested references.  A nested
`FileNotFoundError` is caught at each level and renamed to that level's
resolved path (see `resolveSegs`).  `fuel` bounds the inclusion
depth. -/
def include_external_files (fs : FS) : Nat → List Char → String → Except RenderError (List Char)
  | 0, _, _ => .error .outOfFuel
  | fuel + 1, content, path =>
    resolveSegs (fun c p => include_external_files fs fuel c p) fs (dirname path) (scanFrags content)

/-- Character class `[a-zA-Z0-9_]` of the variable pattern. -/
def isWordChar (c : Char) : Bool :=
  ('a' ≤ c && c ≤ 'z') || ('A' ≤ c && c ≤ 'Z') || ('0' ≤ c && c ≤ '9') || c = '_'

/-- Matching the variable pattern just after its two opening braces:
optional spaces, a nonempty greedy run of word characters, optional
spaces, two closing braces.  Returns the captured identifier and the
text after the match. -/
def varMatch (cs : List Char) : Option (List Char × List Char) :=
  let cs1 := cs.dropWhile (fun c => c = ' ')
  let ident := cs1.takeWhile isWordChar
  if ident.isEmpty then none
  else
    match (cs1.drop ident.length).dropWhile (fun c => c = ' ') with
    | '}' :: '}' :: rest => some (ident, rest)
    | _ => none

/-- Left-to-right, non-overlapping scan for the variable pattern, as
`re.findall` performs it; the `Nat` argument bounds the steps and
`cs.length` always suffices. -/
def scanVarsF : Nat → List Char → List (List Char)
  | 0, _ => []
  | _, [] => []
  | fuel + 1, c :: rest =>
    match c, rest with
    | '{', '{' :: rest2 =>
      match varMatch rest2 with
      | some (ident, rest') => ident :: scanVarsF fuel rest'
      | none => scanVarsF fuel rest
    | _, _ => scanVarsF fuel rest

/-- All variable-pattern captures of a text, in match order, duplicates
included. -/
def scanVars (cs : List Char) : List (List Char) :=
  scanVarsF cs.length cs

/-- Drop elements seen before, keeping first occurrences (the model of a
Python `set`, with a deterministic first-occurrence order standing in
for the set's unspecified iteration order). -/
def dedupAux {α : Type} [DecidableEq α] (seen : List α) : List α → List α
  | [] => []
  | x :: xs => if x ∈ seen then dedupAux seen xs else x :: dedupAux (x :: seen) xs

/-- Distinct elements of a list in first-occurrence order. -/
def dedupFirst {α : Type} [DecidableEq α] (l : List α) : List α :=
  dedupAux [] l

/-- Model of `find_template_variables(template_content)`: the set of
identifiers captured by the variable pattern. -/
def find_template_variables (content : List Char) : List String :=
  dedupFirst ((scanVars content).map (fun l => String.mk l))

/-- The variable namespace: a Python `dict` as an association list in
insertion order. -/
abbrev VarMap := List (String × String)

/-- Key membership, `k in d.keys()`. -/
def hasKey (vars : VarMap) (k : String) : Bool :=
  vars.any (fun p => p.1 = k)

/-- Value lookup, `d[k]`. -/
def lookupVar (vars : VarMap) (k : String) : Option String :=
  (vars.find? (fun p => p.1 = k)).map (fun p => p.2)

/-- Modelled from the spec: the external Jinja2 templating engine
(`Template(content).render(variables)`), out of scope of the repository,
restricted to the simple-substitution syntax the spec specifies: each
variable-pattern occurrence is replaced by the variable's value, a
missing variable by the empty string; other text passes through. -/
def substVarsF (vars : VarMap) : Nat → List Char → List Char
  | 0, _ => []
  | _, [] => []
  | fuel + 1, c :: rest =>
    match c, rest with
    | '{', '{' :: rest2 =>
      match varMatch rest2 with
      | some (ident, rest') =>
        ((lookupVar vars (String.mk ident)).getD "").data ++ substVarsF vars fuel rest'
      | none => c :: substVarsF vars fuel rest
    | _, _ => c :: substVarsF vars fuel rest

/-- Modelled from the spec: the external templating engine applied to a
whole text (see `substVarsF`). -/
def substVars (vars : VarMap) (cs : List Char) : List Char :=
  substVarsF vars cs.length cs

/-- Result of one `render_template` call: the rendered text and the
optional undefined-variable warning `(template_path, names)` printed to
stdout (the model keeps the diagnosed name set in first-occurrence
order; Python's set iteration order is unspecified). -/
structure RenderResult where
  output : List Char
  warning : Option (String × List String)
deriving DecidableEq, Repr

/-- Model of `render_template(template_path, variables)`: read the file
(`missingTemplate` if absent), expand fragment inclusions, scan the
expanded text for variable usage, diagnose usage minus namespace keys
without aborting, then substitute. -/
def render_template (fuel : Nat) (fs : FS) (template_path : String) (vars : VarMap) :
    Except RenderError RenderResult :=
  match fsRead fs template_path with
  | none => .error (.missingTemplate template_path)
  | some content =>
    match include_external_files fs fuel content template_path with
    | .error e => .error e
    | .ok expanded =>
      let template_vars := find_template_variables expanded
      let undefined_vars := template_vars.filter (fun v => !(hasKey vars v))
      .ok { output := substVars vars expanded,
            warning := if undefined_vars.isEmpty then none
                       else some (template_path, undefined_vars) }

/-- The extension filter of `process_directory`:
`file.endswith('.md') or file.endswith('.yaml') or file.endswith('.yml')`. -/
def matchesExt (f : String) : Bool :=
  strEndsWith f ".md" || strEndsWith f ".yaml" || strEndsWith f ".yml"

/-- Process the files of one walked directory: render each file passing
the extension filter and record the write `(output path, content)`;
the first error aborts with the writes made so far. -/
def processFiles (fuel : Nat) (fs : FS) (vars : VarMap) (root out_root : String) :
    List String → List (String × List Char) × Option RenderError
  | [] => ([], none)
  | f :: rest =>
    if matchesExt f then
      match render_template fuel fs (joinPath root f) vars with
      | .error e => ([], some e)
      | .ok r =>
        ((joinPath out_root f, r.output) :: (processFiles fuel fs vars root out_root rest).1,
         (processFiles fuel fs vars root out_root rest).2)
    else processFiles fuel fs vars root out_root rest

/-- Model of `process_directory(input_dir, output_dir, variables)`.  The
`os.walk` enumeration is supplied as a list of `(root, files)` entries;
for each entry the mirrored output root is
`os.path.join(output_dir, os.path.relpath(root, input_dir))`.  Returns
the ordered writes performed and the first error, if any (writes made
before the error remain, as on disk; `os.makedirs` has no observable
effect in the model). -/
def process_directory (fuel : Nat) (fs : FS) (walk : List (String × List String))
    (input_dir output_dir : String) (vars : VarMap) :
    List (String × List Char) × Option RenderError :=
  match walk with
  | [] => ([], none)
  | (root, files) :: rest =>
    match (processFiles fuel fs vars root (joinPath output_dir (relpath root input_dir)) files).2
    with
    | some e =>
      ((processFiles fuel fs vars root (joinPath output_dir (relpath root input_dir)) files).1,
       some e)
    | none =>
      ((processFiles fuel fs vars root (joinPath output_dir (relpath root input_dir)) files).1 ++
        (process_directory fuel fs rest input_dir output_dir vars).1,
       (process_directory fuel fs rest input_dir output_dir vars).2)

/-- Possible results of `yaml.safe_load` on one file, as far as
`dict.update` distinguishes them: a key/value mapping; a non-mapping
iterable of key/value pairs (e.g. YAML `[[k, v]]`), which `dict.update`
also accepts; the null value (an empty file), on which `dict.update`
raises `TypeError`; or a non-empty scalar string, on which it raises
`ValueError` (its characters are not pairs). -/
inductive YamlValue where
  | mapping (m : List (String × String))
  | pairList (m : List (String × String))
  | nullValue
  | strValue
deriving DecidableEq, Repr

/-- Whether a parse result is a mapping proper. -/
def isMappingValue : YamlValue → Bool
  | .mapping _ => true
  | _ => false

/-- Outcome of parsing one data file: a `YamlValue`, or a parse failure
(`yaml.YAMLError`). -/
inductive ParseResult where
  | failed
  | ok (v : YamlValue)
deriving DecidableEq, Repr

/-- Overwrite-or-append of a single key (one step of `dict.update`): an
existing key keeps its position and takes the new value, a new key is
appended.  Keys of a Python `dict` are unique, so updating the first
occurrence is the dict behavior. -/
def updateOne : VarMap → String → String → VarMap
  | [], k, v => [(k, v)]
  | (a, b) :: tl, k, v => if a = k then (k, v) :: tl else (a, b) :: updateOne tl k v

/-- Model of `dict.update(m)`: fold `updateOne` over the entries of `m`
in order. -/
def dictUpdate (ns : VarMap) (m : List (String × String)) : VarMap :=
  m.foldl (fun acc kv => updateOne acc kv.1 kv.2) ns

/-- The extension filter of `load_variables`:
`file.endswith('.yaml') or file.endswith('.yml')`. -/
def isYamlFile (f : String) : Bool :=
  strEndsWith f ".yaml" || strEndsWith f ".yml"

/-- Load the data files of one walked directory in order: read each file
passing the extension filter, parse it, and `dict.update` the
accumulator.  A parse failure raises `invalidDataFile` naming the file;
a mapping or an iterable of key/value pairs merges (`dict.update`
accepts both); null raises the path-less `typeError` and a non-empty
scalar string the path-less `valueError`. -/
def loadFiles (parse : List Char → ParseResult) (fs : FS) (root : String) :
    VarMap → List String → Except RenderError VarMap
  | acc, [] => .ok acc
  | acc, f :: rest =>
    if isYamlFile f then
      let p := joinPath root f
      match fsRead fs p with
      | none => .error (.fileNotFound p)
      | some content =>
        match parse content with
        | .failed => .error (.invalidDataFile p)
        | .ok (.mapping m) => loadFiles parse fs root (dictUpdate acc m) rest
        | .ok (.pairList m) => loadFiles parse fs root (dictUpdate acc m) rest
        | .ok .nullValue => .error .typeError
        | .ok .strValue => .error .valueError
    else loadFiles parse fs root acc rest

/-- Load all walked `(root, files)` entries of one variable directory. -/
def loadEntries (parse : List Char → ParseResult) (fs : FS) :
    VarMap → List (String × List String) → Except RenderError VarMap
  | acc, [] => .ok acc
  | acc, (root, files) :: rest => do
    let acc' ← loadFiles parse fs root acc files
    loadEntries parse fs acc' rest

/-- Model of `load_variables(variable_dirs)`: fold the walked variable
directories in argument order into one accumulating namespace, skipping
empty directory strings; the external `yaml.safe_load` is the `parse`
parameter. -/
def load_variables (parse : List Char → ParseResult) (fs : FS) :
    VarMap → List (String × List (String × List String)) → Except RenderError VarMap
  | acc, [] => .ok acc
  | acc, (dirName, entries) :: rest =>
    if dirName = "" then load_variables parse fs acc rest
    else do
      let acc' ← loadEntries parse fs acc entries
      load_variables parse fs acc' rest

/-- Model of the `is_directory` loop of `run`: the first non-empty
directory string that is not a directory raises `NotADirectoryError`. -/
def checkDirs (isDir : String → Bool) : List String → Option RenderError
  | [] => none
  | d :: rest =>
    if d ≠ "" && !(isDir d) then some (.notADirectory d) else checkDirs isDir rest

/-- Process the template directories of `run` in order, skipping empty
strings, accumulating writes until the first error. -/
def processTemplateDirs (fuel : Nat) (fs : FS) (vars : VarMap) (output_dir : String) :
    List (String × List (String × List String)) →
      List (String × List Char) × Option RenderError
  | [] => ([], none)
  | (dirName, walk) :: rest =>
    if dirName = "" then processTemplateDirs fuel fs vars output_dir rest
    else
      match (process_directory fuel fs walk dirName output_dir vars).2 with
      | some e => ((process_directory fuel fs walk dirName output_dir vars).1, some e)
      | none =>
        ((process_directory fuel fs walk dirName output_dir vars).1 ++
          (processTemplateDirs fuel fs vars output_dir rest).1,
         (processTemplateDirs fuel fs vars output_dir rest).2)

/-- Model of `run(template_dirs, variable_dirs, output_dir)`: validate
the directories, load the variables, then process each template
directory; every error bubbles unmodified to the result, halting the
batch. -/
def run (parse : List Char → ParseResult) (fuel : Nat) (fs : FS) (isDir : String → Bool)
    (template_dirs : List (String × List (String × List String)))
    (variable_dirs : List (String × List (String × List String)))
    (output_dir : String) : List (String × List Char) × Option RenderError :=
  match checkDirs isDir (template_dirs.map (fun d => d.1) ++ variable_dirs.map (fun d => d.1)) with
  | some e => ([], some e)
  | none =>
    match load_variables parse fs [] variable_dirs with
    | .error e => ([], some e)
    | .ok vars => processTemplateDirs fuel fs vars output_dir template_dirs

/-- Text of a lone fragment reference, `\x7b\x7b\x7b r \x7d\x7d\x7d`. -/
def fragRefText (r : List Char) : List Char :=
  ['{', '{', '{', ' '] ++ r ++ [' ', '}', '}', '}']

/-- Resolved target of a fragment reference `r` occurring in the file at
`base`. -/
def refTarget (base : String) (r : List Char) : String :=
  joinPath (dirname base) (String.mk r)

/-- An inclusion-depth measure witnessing that the inclusion graph of
`fs` is acyclic: every readable fragment reference strictly decreases
the measure from the including file to the included one. -/
def DecreasingMeasure (fs : FS) (h : String → Nat) : Prop :=
  ∀ e ∈ fs, ∀ r ∈ refsOf e.2,
    (fsRead fs (refTarget e.1 r)).isSome = true → h (refTarget e.1 r) < h e.1

/-- Text of the self-including fragment `/a/x.md`. -/
def cycleText : List Char := fragRefText "x.md".data

/-- A filesystem whose single file includes itself. -/
def fsCycle : FS := [("/a/x.md", cycleText)]

/-- A fragment library: `/a/t.md`'s reference `b/f1.md` leads to
`/a/b/f1.md`, whose own reference `f2.md` must resolve to `/a/b/f2.md`
(content `inner`) and not `/a/f2.md` (content `WRONG`). -/
def fsNested : FS :=
  [("/a/b/f1.md", fragRefText "f2.md".data),
   ("/a/b/f2.md", "inner".data),
   ("/a/f2.md", "WRONG".data)]

/-- A template whose raw text is a single fragment reference and whose
fragment is the only place the variable `fragvar` occurs. -/
def fsFragVar : FS :=
  [("/a/t.md", fragRefText "frag.md".data),
   ("/a/frag.md", ['{', '{'] ++ " fragvar ".data ++ ['}', '}'])]

/-- The template text of the undefined-variable scenario. -/
def greetText : List Char :=
  "Hello, ".data ++ ['{', '{'] ++ " name ".data ++ ['}', '}'] ++ " and ".data ++
    ['{', '{'] ++ " undefined_variable ".data ++ ['}', '}'] ++ "!".data

/-- A filesystem with a missing fragment two levels deep: `/a/t.md`'s
reference `b/f1.md` exists, but `/a/b/f1.md`'s reference `f2.md`
resolves to the absent `/a/b/f2.md`. -/
def fsC6Nested : FS := [("/a/b/f1.md", fragRefText "f2.md".data)]

/-- An acyclic filesystem: `/p/t.md` includes `a.md`, which includes
nothing. -/
def fsAcyclic : FS := [("/p/t.md", fragRefText "a.md".data), ("/p/a.md", "A".data)]

/-- An inclusion-depth measure for `fsAcyclic`. -/
def acyclicRank (p : String) : Nat := if p = "/p/t.md" then 1 else 0

theorem scanFragsF_nil (fuel : Nat) : scanFragsF fuel [] = [] := by
  cases fuel <;> rfl

theorem fragClose_cons_ne (c : Char) (cs : List Char) (hs : c ≠ ' ') (hb : c ≠ '}') :
    fragClose (c :: cs) = none := by
  simp [fragClose, List.dropWhile_cons, hs, hb]

theorem fragContent_close (acc : List Char) (c : Char) (cs rest : List Char)
    (hcl : fragClose (c :: cs) = some rest) :
    fragContent acc (c :: cs) = some (acc.reverse, rest) := by
  simp [fragContent, hcl]

theorem fragContent_step (acc : List Char) (c : Char) (cs : List Char)
    (hcl : fragClose (c :: cs) = none) (hn : c ≠ '\n') :
    fragContent acc (c :: cs) = fragContent (c :: acc) cs := by
  simp [fragContent, hcl, hn]

theorem fragContent_closing (r : List Char) :
    ∀ acc tail : List Char, (∀ c ∈ r, c ≠ '\n' ∧ c ≠ '}' ∧ c ≠ ' ') →
      fragContent acc (r ++ ' ' :: '}' :: '}' :: '}' :: tail) = some (acc.reverse ++ r, tail) := by
  induction r with
  | nil =>
    intro acc tail _
    have hcl : fragClose (' ' :: '}' :: '}' :: '}' :: tail) = some tail := by
      simp [fragClose, List.dropWhile_cons]
    rw [List.nil_append, fragContent_close _ _ _ _ hcl, List.append_nil]
  | cons c r' ih =>
    intro acc tail h
    obtain ⟨hn, hb, hs⟩ := h c (by simp)
    have hrest : ∀ d ∈ r', d ≠ '\n' ∧ d ≠ '}' ∧ d ≠ ' ' := fun d hd => h d (by simp [hd])
    rw [List.cons_append,
      fragContent_step _ _ _ (fragClose_cons_ne _ _ hs hb) hn,
      ih (c :: acc) tail hrest]
    simp

theorem fragMatch_closing (r tail : List Char)
    (h : ∀ c ∈ r, c ≠ '\n' ∧ c ≠ '}' ∧ c ≠ ' ') :
    fragMatch (' ' :: r ++ ' ' :: '}' :: '}' :: '}' :: tail) = some (r, tail) := by
  cases r with
  | nil =>
    have hcl : fragClose ('}' :: '}' :: '}' :: tail) = some tail := by
      simp [fragClose, List.dropWhile_cons]
    simp [fragMatch, List.dropWhile_cons, fragContent_close _ _ _ _ hcl]
  | cons c r' =>
    obtain ⟨hn, hb, hs⟩ := h c (by simp)
    have hdrop :
        ((' ' :: (c :: r') ++ ' ' :: '}' :: '}' :: '}' :: tail).dropWhile (fun c => c = ' ')) =
          (c :: r') ++ ' ' :: '}' :: '}' :: '}' :: tail := by
      simp [List.dropWhile_cons, hs]
    rw [fragMatch, hdrop, fragContent_closing _ _ _ h]
    simp

theorem scanFrags_fragRefText (r : List Char)
    (h : ∀ c ∈ r, c ≠ '\n' ∧ c ≠ '}' ∧ c ≠ ' ') :
    scanFrags (fragRefText r) = [Frag.ref r] := by
  have hlen : (fragRefText r).length = (r.length + 7) + 1 := by
    simp [fragRefText]
  rw [scanFrags, hlen]
  show scanFragsF ((r.length + 7) + 1)
      ('{' :: '{' :: '{' :: (' ' :: r ++ ' ' :: '}' :: '}' :: '}' :: [])) = [Frag.ref r]
  rw [scanFragsF]
  simp only [fragMatch_closing r [] h, scanFragsF_nil]
  simp

theorem scanFragsF_no_ref (fuel : Nat) :
    ∀ cs : List Char, cs.length ≤ fuel → (scanFragsF fuel cs).filterMap fragRef? = [] →
      scanFragsF fuel cs = cs.map Frag.lit := by
  induction fuel with
  | zero =>
    intro cs hl _
    cases cs with
    | nil => rfl
    | cons c rest => simp at hl
  | succ k ih =>
    intro cs hl hr
    cases cs with
    | nil => rfl
    | cons c rest =>
      have hlr : rest.length ≤ k := by simp at hl; omega
      cases rest with
      | nil =>
        simp [scanFragsF, scanFragsF_nil]
      | cons c2 rest1 =>
        cases rest1 with
        | nil =>
          rw [scanFragsF] at hr ⊢
          simp only [fragRef?, List.filterMap_cons] at hr
          simp only [List.map_cons, List.map_nil]
          rw [ih [c2] hlr hr]
          simp
        | cons c3 rest2 =>
          rw [scanFragsF] at hr ⊢
          by_cases hcond : c = '{' ∧ c2 = '{' ∧ c3 = '{'
          · rw [if_pos hcond] at hr ⊢
            cases hfm : fragMatch rest2 with
            | some pr =>
              cases pr with
              | mk a b =>
                rw [hfm] at hr
                change List.filterMap fragRef? (Frag.ref a :: scanFragsF k b) = [] at hr
                simp [fragRef?] at hr
            | none =>
              rw [hfm] at hr
              change List.filterMap fragRef? (Frag.lit c :: scanFragsF k (c2 :: c3 :: rest2)) = []
                at hr
              show Frag.lit c :: scanFragsF k (c2 :: c3 :: rest2) =
                List.map Frag.lit (c :: c2 :: c3 :: rest2)
              simp only [fragRef?, List.filterMap_cons] at hr
              simp only [List.map_cons]
              rw [ih (c2 :: c3 :: rest2) hlr hr]
              simp
          · rw [if_neg hcond] at hr ⊢
            simp only [fragRef?, List.filterMap_cons] at hr
            simp only [List.map_cons]
            rw [ih (c2 :: c3 :: rest2) hlr hr]
            simp

theorem resolveSegs_lits (recurse : List Char → String → Except RenderError (List Char))
    (fs : FS) (dir : String) :
    ∀ cs : List Char, resolveSegs recurse fs dir (cs.map Frag.lit) = .ok cs := by
  intro cs
  induction cs with
  | nil => rfl
  | cons c rest ih => simp [resolveSegs, ih, Except.map]

theorem include_identity (fs : FS) (text : List Char) (p : String) (fuel : Nat)
    (h : hasFragmentRef text = false) (hf : 0 < fuel) :
    include_external_files fs fuel text p = .ok text := by
  cases fuel with
  | zero => omega
  | succ k =>
    have hs : scanFrags text = text.map Frag.lit := by
      apply scanFragsF_no_ref text.length text (le_refl _)
      simp only [hasFragmentRef, refsOf, scanFrags, Bool.not_eq_false'] at h
      exact List.isEmpty_iff.mp h
    rw [include_external_files, hs]
    exact resolveSegs_lits _ fs _ text

theorem lookupVar_cons (a b : String) (tl : VarMap) (k : String) :
    lookupVar ((a, b) :: tl) k = if a = k then some b else lookupVar tl k := by
  by_cases h : a = k <;> simp [lookupVar, List.find?_cons, h]

theorem lookupVar_updateOne (ns : VarMap) (k v k' : String) :
    lookupVar (updateOne ns k v) k' = if k = k' then some v else lookupVar ns k' := by
  induction ns with
  | nil =>
    show lookupVar [(k, v)] k' = _
    rw [lookupVar_cons]
  | cons p tl ih =>
    cases p with
    | mk a b =>
      rw [updateOne]
      by_cases hak : a = k
      · rw [if_pos hak, lookupVar_cons, lookupVar_cons, hak]
        by_cases hk : k = k' <;> simp [hk]
      · rw [if_neg hak, lookupVar_cons, ih, lookupVar_cons]
        by_cases hk : k = k'
        · subst hk
          simp [hak]
        · simp [hk]

theorem lookupVar_dictUpdate (m : List (String × String)) :
    ∀ (ns : VarMap) (k : String),
      lookupVar (dictUpdate ns m) k =
        match lookupVar (dictUpdate [] m) k with
        | some v => some v
        | none => lookupVar ns k := by
  induction m with
  | nil =>
    intro ns k
    rfl
  | cons kv m' ih =>
    intro ns k
    cases kv with
    | mk k1 v1 =>
      show lookupVar (dictUpdate (updateOne ns k1 v1) m') k = _
      rw [ih (updateOne ns k1 v1) k]
      conv_rhs => rw [show dictUpdate [] ((k1, v1) :: m') = dictUpdate [(k1, v1)] m' from rfl]
      rw [ih [(k1, v1)] k]
      cases hm : lookupVar (dictUpdate [] m') k with
      | some v => rfl
      | none =>
        rw [lookupVar_updateOne, lookupVar_cons]
        by_cases hk : k1 = k
        · simp [hk]
        · simp [hk, lookupVar]

theorem resolveSegs_congr (fs : FS) (dir : String)
    (r1 r2 : List Char → String → Except RenderError (List Char)) :
    ∀ segs : List Frag,
      (∀ r ∈ segs.filterMap fragRef?, ∀ c,
        fsRead fs (joinPath dir (String.mk r)) = some c →
          r1 c (joinPath dir (String.mk r)) = r2 c (joinPath dir (String.mk r))) →
      resolveSegs r1 fs dir segs = resolveSegs r2 fs dir segs := by
  intro segs
  induction segs with
  | nil => intro _; rfl
  | cons s rest ih =>
    intro h
    cases s with
    | lit c =>
      have hrest : ∀ r ∈ rest.filterMap fragRef?, ∀ c,
          fsRead fs (joinPath dir (String.mk r)) = some c →
            r1 c (joinPath dir (String.mk r)) = r2 c (joinPath dir (String.mk r)) := by
        intro r hr
        exact h r (by simp [fragRef?, hr])
      rw [resolveSegs, resolveSegs, ih hrest]
    | ref r =>
      have hrest : ∀ r ∈ rest.filterMap fragRef?, ∀ c,
          fsRead fs (joinPath dir (String.mk r)) = some c →
            r1 c (joinPath dir (String.mk r)) = r2 c (joinPath dir (String.mk r)) := by
        intro r hr
        exact h r (by simp [fragRef?, hr])
      have hself : ∀ c, fsRead fs (joinPath dir (String.mk r)) = some c →
          r1 c (joinPath dir (String.mk r)) = r2 c (joinPath dir (String.mk r)) :=
        h r (by simp [fragRef?])
      rw [resolveSegs, resolveSegs]
      cases hfs : fsRead fs (joinPath dir (String.mk r)) with
      | none => rfl
      | some content =>
        show (match r1 content (joinPath dir (String.mk r)) with
            | .error e =>
              if isFileNotFoundError e then
                Except.error (RenderError.missingFragment (joinPath dir (String.mk r)))
              else Except.error e
            | .ok inner => do
              let tail ← resolveSegs r1 fs dir rest
              Except.ok (inner ++ tail)) =
          (match r2 content (joinPath dir (String.mk r)) with
            | .error e =>
              if isFileNotFoundError e then
                Except.error (RenderError.missingFragment (joinPath dir (String.mk r)))
              else Except.error e
            | .ok inner => do
              let tail ← resolveSegs r2 fs dir rest
              Except.ok (inner ++ tail))
        rw [hself content hfs, ih hrest]

theorem resolveSegs_ne_outOfFuel (fs : FS) (dir : String)
    (recurse : List Char → String → Except RenderError (List Char)) :
    ∀ segs : List Frag,
      (∀ r ∈ segs.filterMap fragRef?, ∀ c,
        fsRead fs (joinPath dir (String.mk r)) = some c →
          recurse c (joinPath dir (String.mk r)) ≠ .error .outOfFuel) →
      resolveSegs recurse fs dir segs ≠ .error .outOfFuel := by
  intro segs
  induction segs with
  | nil => intro _ hc; cases hc
  | cons s rest ih =>
    intro h
    cases s with
    | lit c =>
      have hrest : ∀ r ∈ rest.filterMap fragRef?, ∀ c,
          fsRead fs (joinPath dir (String.mk r)) = some c →
            recurse c (joinPath dir (String.mk r)) ≠ .error .outOfFuel := by
        intro r hr
        exact h r (by simp [fragRef?, hr])
      rw [resolveSegs]
      cases hres : resolveSegs recurse fs dir rest with
      | ok t => simp [Except.map]
      | error e =>
        have hne := ih hrest
        rw [hres] at hne
        simp only [Except.map]
        intro hc
        exact hne (by rw [show e = RenderError.outOfFuel from by injection hc])
    | ref r =>
      have hrest : ∀ r ∈ rest.filterMap fragRef?, ∀ c,
          fsRead fs (joinPath dir (String.mk r)) = some c →
            recurse c (joinPath dir (String.mk r)) ≠ .error .outOfFuel := by
        intro r hr
        exact h r (by simp [fragRef?, hr])
      have hself : ∀ c, fsRead fs (joinPath dir (String.mk r)) = some c →
          recurse c (joinPath dir (String.mk r)) ≠ .error .outOfFuel :=
        h r (by simp [fragRef?])
      rw [resolveSegs]
      cases hfs : fsRead fs (joinPath dir (String.mk r)) with
      | none => intro hc; cases hc
      | some content =>
        show (match recurse content (joinPath dir (String.mk r)) with
            | .error e =>
              if isFileNotFoundError e then
                Except.error (RenderError.missingFragment (joinPath dir (String.mk r)))
              else Except.error e
            | .ok inner => do
              let tail ← resolveSegs recurse fs dir rest
              Except.ok (inner ++ tail)) ≠ Except.error RenderError.outOfFuel
        cases hrec : recurse content (joinPath dir (String.mk r)) with
        | error e =>
          have hne := hself content hfs
          rw [hrec] at hne
          show (if isFileNotFoundError e then
              Except.error (RenderError.missingFragment (joinPath dir (String.mk r)))
            else Except.error e) ≠ Except.error RenderError.outOfFuel
          by_cases hfnf : isFileNotFoundError e = true
          · rw [if_pos hfnf]
            intro hc
            cases hc
          · rw [if_neg hfnf]
            intro hc
            exact hne (by rw [show e = RenderError.outOfFuel from by injection hc])
        | ok inner =>
          cases hres : resolveSegs recurse fs dir rest with
          | error e =>
            have hne := ih hrest
            rw [hres] at hne
            show Except.error e ≠ Except.error RenderError.outOfFuel
            intro hc
            exact hne (by rw [show e = RenderError.outOfFuel from by injection hc])
          | ok t =>
            show Except.ok (inner ++ t) ≠ Except.error RenderError.outOfFuel
            intro hc
            cases hc

theorem include_cycle : ∀ fuel,
    include_external_files fsCycle fuel cycleText "/a/x.md" = .error .outOfFuel := by
  intro fuel
  induction fuel with
  | zero => rfl
  | succ k ih =>
    have hstep : include_external_files fsCycle (k + 1) cycleText "/a/x.md" =
        match include_external_files fsCycle k cycleText "/a/x.md" with
        | .error e =>
          if isFileNotFoundError e then .error (.missingFragment "/a/x.md") else .error e
        | .ok inner =>
          (resolveSegs (fun c p => include_external_files fsCycle k c p) fsCycle
              (dirname "/a/x.md") ([] : List Frag)).bind
            (fun tail => Except.ok (inner ++ tail)) := rfl
    rw [hstep, ih]
    rfl

theorem include_stable (fs : FS) (h : String → Nat) (hdec : DecreasingMeasure fs h) :
    ∀ n path content, fsRead fs path = some content → h path < n →
      include_external_files fs n content path ≠ .error .outOfFuel ∧
      ∀ m, h path < m →
        include_external_files fs n content path = include_external_files fs m content path := by
  intro n
  induction n using Nat.strong_induction_on with
  | _ n ih =>
    intro path content hread hlt
    have key : ∀ r ∈ (scanFrags content).filterMap fragRef?, ∀ c : List Char,
        fsRead fs (joinPath (dirname path) (String.mk r)) = some c →
          h (joinPath (dirname path) (String.mk r)) < h path := by
      intro r hr c hc
      obtain ⟨e, hfind, he2⟩ := Option.map_eq_some'.mp hread
      have hmem : e ∈ fs := List.mem_of_find?_eq_some hfind
      have hpe : e.1 = path := by
        have := List.find?_some hfind
        simpa using this
      have hdecr := hdec e hmem r (by rw [refsOf, he2]; exact hr)
        (by rw [refTarget, hpe, hc]; rfl)
      rw [refTarget, hpe] at hdecr
      exact hdecr
    cases n with
    | zero => omega
    | succ k =>
      constructor
      · rw [include_external_files]
        apply resolveSegs_ne_outOfFuel
        intro r hr c hc
        have hlt2 : h (joinPath (dirname path) (String.mk r)) < h path := key r hr c hc
        exact (ih k (Nat.lt_succ_self k) (joinPath (dirname path) (String.mk r)) c hc
          (by omega)).1
      · intro m hm
        cases m with
        | zero => omega
        | succ j =>
          rw [include_external_files, include_external_files]
          apply resolveSegs_congr
          intro r hr c hc
          have hlt2 : h (joinPath (dirname path) (String.mk r)) < h path := key r hr c hc
          exact (ih k (Nat.lt_succ_self k) (joinPath (dirname path) (String.mk r)) c hc
            (by omega)).2 j (by omega)

theorem include_fragRefText (fs : FS) (r : List Char) (base : String) (fuel : Nat)
    (h : ∀ c ∈ r, c ≠ '\n' ∧ c ≠ '}' ∧ c ≠ ' ') :
    include_external_files fs (fuel + 1) (fragRefText r) base =
      match fsRead fs (refTarget base r) with
      | none => .error (.missingFragment (refTarget base r))
      | some c =>
        match include_external_files fs fuel c (refTarget base r) with
        | .error e =>
          if isFileNotFoundError e then .error (.missingFragment (refTarget base r))
          else .error e
        | .ok inner => .ok inner := by
  rw [include_external_files, scanFrags_fragRefText r h, refTarget]
  rw [resolveSegs]
  cases hfs : fsRead fs (joinPath (dirname base) (String.mk r)) with
  | none => rfl
  | some c =>
    show (match include_external_files fs fuel c (joinPath (dirname base) (String.mk r)) with
        | .error e =>
          if isFileNotFoundError e then
            Except.error (RenderError.missingFragment (joinPath (dirname base) (String.mk r)))
          else Except.error e
        | .ok inner => do
          let tail ← resolveSegs (fun c p => include_external_files fs fuel c p) fs
            (dirname base) []
          Except.ok (inner ++ tail)) =
      (match include_external_files fs fuel c (joinPath (dirname base) (String.mk r)) with
        | .error e =>
          if isFileNotFoundError e then
            Except.error (RenderError.missingFragment (joinPath (dirname base) (String.mk r)))
          else Except.error e
        | .ok inner => Except.ok inner)
    cases hinc : include_external_files fs fuel c (joinPath (dirname base) (String.mk r)) with
    | error e => rfl
    | ok inner =>
      show Except.ok (inner ++ []) = Except.ok inner
      rw [List.append_nil]

theorem render_propagates (fuel : Nat) (fs : FS) (p : String) (vars : VarMap)
    (content : List Char) (e : RenderError)
    (hr : fsRead fs p = some content)
    (he : include_external_files fs fuel content p = .error e) :
    render_template fuel fs p vars = .error e := by
  simp only [render_template, hr, he]

theorem render_template_ok (fuel : Nat) (fs : FS) (p : String) (vars : VarMap)
    (content expanded : List Char)
    (hr : fsRead fs p = some content)
    (he : include_external_files fs fuel content p = .ok expanded) :
    render_template fuel fs p vars =
      .ok { output := substVars vars expanded,
            warning :=
              if ((find_template_variables expanded).filter
                  (fun v => !(hasKey vars v))).isEmpty then none
              else some (p, (find_template_variables expanded).filter
                  (fun v => !(hasKey vars v))) } := by
  simp only [render_template, hr, he]

theorem processFiles_error (fuel : Nat) (fs : FS) (vars : VarMap) (root out_root f : String)
    (rest : List String) (e : RenderError)
    (hm : matchesExt f = true)
    (he : render_template fuel fs (joinPath root f) vars = .error e) :
    processFiles fuel fs vars root out_root (f :: rest) = ([], some e) := by
  simp only [processFiles, hm, he, if_true]

theorem processFiles_writes (fuel : Nat) (fs : FS) (vars : VarMap) (root out_root : String) :
    ∀ files : List String, (processFiles fuel fs vars root out_root files).2 = none →
      (processFiles fuel fs vars root out_root files).1.map Prod.fst =
        (files.filter matchesExt).map (fun f => joinPath out_root f) := by
  intro files
  induction files with
  | nil => intro _; rfl
  | cons f rest ih =>
    by_cases hm : matchesExt f = true
    · rw [processFiles, if_pos hm]
      cases hrt : render_template fuel fs (joinPath root f) vars with
      | error e => intro hnone; cases hnone
      | ok r =>
        intro hnone
        change (processFiles fuel fs vars root out_root rest).2 = none at hnone
        show List.map Prod.fst ((joinPath out_root f, r.output) ::
            (processFiles fuel fs vars root out_root rest).1) =
          List.map (fun f => joinPath out_root f) (List.filter matchesExt (f :: rest))
        rw [List.filter_cons_of_pos hm]
        simp only [List.map_cons]
        rw [ih hnone]
    · have hm' : matchesExt f = false := by simpa using hm
      intro hnone
      rw [processFiles, if_neg (by simp [hm'])] at hnone ⊢
      rw [List.filter_cons_of_neg (by simp [hm'])]
      exact ih hnone

theorem process_directory_writes (fuel : Nat) (fs : FS) (vars : VarMap)
    (input_dir output_dir : String) :
    ∀ walk : List (String × List String),
      (process_directory fuel fs walk input_dir output_dir vars).2 = none →
        (process_directory fuel fs walk input_dir output_dir vars).1.map Prod.fst =
          walk.flatMap (fun e => (e.2.filter matchesExt).map
            (fun f => joinPath (joinPath output_dir (relpath e.1 input_dir)) f)) := by
  intro walk
  induction walk with
  | nil => intro _; rfl
  | cons e rest ih =>
    rcases e with ⟨root, files⟩
    rw [process_directory]
    cases hsub : (processFiles fuel fs vars root
        (joinPath output_dir (relpath root input_dir)) files).2 with
    | some err => intro hnone; cases hnone
    | none =>
      intro hnone
      change (process_directory fuel fs rest input_dir output_dir vars).2 = none at hnone
      show List.map Prod.fst
          ((processFiles fuel fs vars root
              (joinPath output_dir (relpath root input_dir)) files).1 ++
            (process_directory fuel fs rest input_dir output_dir vars).1) = _
      rw [List.flatMap_cons, List.map_append,
        processFiles_writes fuel fs vars root _ files hsub, ih hnone]

/-- C1: a fragment reference is resolved against the directory
containing the including file's path (an absolute reference is used
as-is), and resolution recurses with the included file's path as the new
base — a nested `FileNotFoundError` being caught and renamed to this
level's resolved path on the way out; concretely, `/a/t.md` including
`b/f1.md`, whose file includes `f2.md`, yields the content of
`/a/b/f2.md` (`inner`), not that of `/a/f2.md` (`WRONG`). -/
theorem spec_C1 (r : List Char) (base : String) (fs : FS) (fuel : Nat)
    (h : ∀ c ∈ r, c ≠ '\n' ∧ c ≠ '}' ∧ c ≠ ' ') :
    (include_external_files fs (fuel + 1) (fragRefText r) base =
      match fsRead fs (refTarget base r) with
      | none => .error (.missingFragment (refTarget base r))
      | some c =>
        match include_external_files fs fuel c (refTarget base r) with
        | .error e =>
          if isFileNotFoundError e then .error (.missingFragment (refTarget base r))
          else .error e
        | .ok inner => .ok inner) ∧
    (strStartsWith (String.mk r) "/" = true → refTarget base r = String.mk r) ∧
    include_external_files fsNested 3 (fragRefText "b/f1.md".data) "/a/t.md" =
      .ok "inner".data := by
  refine ⟨include_fragRefText fs r base fuel h, ?_, by decide⟩
  intro habs
  simp [refTarget, joinPath, habs]

theorem spec_C1_witness :
    (include_external_files fsNested 3 (fragRefText "b/f1.md".data) "/a/t.md" =
      match fsRead fsNested (refTarget "/a/t.md" "b/f1.md".data) with
      | none => .error (.missingFragment (refTarget "/a/t.md" "b/f1.md".data))
      | some c =>
        match include_external_files fsNested 2 c (refTarget "/a/t.md" "b/f1.md".data) with
        | .error e =>
          if isFileNotFoundError e then
            .error (.missingFragment (refTarget "/a/t.md" "b/f1.md".data))
          else .error e
        | .ok inner => .ok inner) ∧
    (strStartsWith (String.mk "b/f1.md".data) "/" = true →
      refTarget "/a/t.md" "b/f1.md".data = String.mk "b/f1.md".data) ∧
    include_external_files fsNested 3 (fragRefText "b/f1.md".data) "/a/t.md" =
      .ok "inner".data :=
  spec_C1 "b/f1.md".data "/a/t.md" fsNested 2 (by decide)

/-- C2: `render_template` first fully expands fragment inclusions, then
scans the expanded text for variable usage, diagnoses the scanned
identifiers missing from the namespace, and substitutes on the expanded
text; consequently a variable occurring only inside an included fragment
is detected — the second conjunct shows the raw template text contains
no variable at all, yet the third diagnoses `fragvar`. -/
theorem spec_C2 (fuel : Nat) (fs : FS) (p : String) (vars : VarMap)
    (content expanded : List Char)
    (hr : fsRead fs p = some content)
    (he : include_external_files fs fuel content p = .ok expanded) :
    (render_template fuel fs p vars =
      .ok { output := substVars vars expanded,
            warning :=
              if ((find_template_variables expanded).filter
                  (fun v => !(hasKey vars v))).isEmpty then none
              else some (p, (find_template_variables expanded).filter
                  (fun v => !(hasKey vars v))) }) ∧
    find_template_variables (fragRefText "frag.md".data) = [] ∧
    render_template 2 fsFragVar "/a/t.md" [] =
      .ok { output := [], warning := some ("/a/t.md", ["fragvar"]) } :=
  ⟨render_template_ok fuel fs p vars content expanded hr he, by decide, by decide⟩

theorem spec_C2_witness :
    (render_template 2 fsFragVar "/a/t.md" [] =
      .ok { output := substVars [] (['{', '{'] ++ " fragvar ".data ++ ['}', '}']),
            warning :=
              if ((find_template_variables
                    (['{', '{'] ++ " fragvar ".data ++ ['}', '}'])).filter
                  (fun v => !(hasKey [] v))).isEmpty then none
              else some ("/a/t.md", (find_template_variables
                    (['{', '{'] ++ " fragvar ".data ++ ['}', '}'])).filter
                  (fun v => !(hasKey [] v))) }) ∧
    find_template_variables (fragRefText "frag.md".data) = [] ∧
    render_template 2 fsFragVar "/a/t.md" [] =
      .ok { output := [], warning := some ("/a/t.md", ["fragvar"]) } :=
  spec_C2 2 fsFragVar "/a/t.md" [] (fragRefText "frag.md".data)
    (['{', '{'] ++ " fragvar ".data ++ ['}', '}']) (by decide) (by decide)

/-- C3: for every template and namespace whose read and fragment
expansion succeed, the diagnosed undefined-variable set is exactly the
scanned identifiers of the expanded text minus the namespace keys, a
non-empty set is reported together with the template path, and
rendering returns a result rather than aborting (conjunct 1); in the
concrete scenario — namespace mapping only `name`, template text
`Hello, \x7b\x7b name \x7d\x7d and \x7b\x7b undefined_variable \x7d\x7d!` —
the diagnostic names exactly `undefined_variable` and substitution
still applies `name` (conjunct 2). -/
theorem spec_C3 (fuel : Nat) (fs : FS) (p : String) :
    (∀ (vars : VarMap) (content expanded : List Char),
      fsRead fs p = some content →
      include_external_files fs fuel content p = .ok expanded →
      render_template fuel fs p vars =
        .ok { output := substVars vars expanded,
              warning :=
                if ((find_template_variables expanded).filter
                    (fun v => !(hasKey vars v))).isEmpty then none
                else some (p, (find_template_variables expanded).filter
                    (fun v => !(hasKey vars v))) }) ∧
    (0 < fuel → fsRead fs p = some greetText →
      render_template fuel fs p [("name", "John Doe")] =
        .ok { output := "Hello, John Doe and !".data,
              warning := some (p, ["undefined_variable"]) }) := by
  constructor
  · intro vars content expanded hr he
    exact render_template_ok fuel fs p vars content expanded hr he
  · intro hf hr
    have hexp : include_external_files fs fuel greetText p = .ok greetText :=
      include_identity fs greetText p fuel (by decide) hf
    rw [render_template_ok fuel fs p _ greetText greetText hr hexp]
    have h1 : substVars [("name", "John Doe")] greetText = "Hello, John Doe and !".data := by
      decide
    have h2 : (find_template_variables greetText).filter
        (fun v => !(hasKey [("name", "John Doe")] v)) = ["undefined_variable"] := by decide
    rw [h1, h2]
    simp

theorem spec_C3_witness :
    render_template 1 [("t.md", greetText)] "t.md" [("name", "John Doe")] =
      .ok { output := substVars [("name", "John Doe")] greetText,
            warning :=
              if ((find_template_variables greetText).filter
                  (fun v => !(hasKey [("name", "John Doe")] v))).isEmpty then none
              else some ("t.md", (find_template_variables greetText).filter
                  (fun v => !(hasKey [("name", "John Doe")] v))) } ∧
    render_template 1 [("t.md", greetText)] "t.md" [("name", "John Doe")] =
      .ok { output := "Hello, John Doe and !".data,
            warning := some ("t.md", ["undefined_variable"]) } :=
  ⟨(spec_C3 1 [("t.md", greetText)] "t.md").1 [("name", "John Doe")] greetText greetText
      (by decide) (by decide),
   (spec_C3 1 [("t.md", greetText)] "t.md").2 (by decide) (by decide)⟩

/-- C5: on text containing no fragment-inclusion syntax,
`include_external_files` is the identity for every filesystem, base path
and positive fuel; hence re-resolving its own span-free output yields
the same text again (idempotence). -/
theorem spec_C5 (text : List Char) (fs : FS) (p : String) (fuel : Nat)
    (h : hasFragmentRef text = false) (hf : 0 < fuel) :
    include_external_files fs fuel text p = .ok text ∧
    ∀ (fs2 : FS) (p2 : String) (fuel2 : Nat) (e : List Char), 0 < fuel2 →
      include_external_files fs fuel text p = .ok e →
      include_external_files fs2 fuel2 e p2 = .ok e := by
  have h1 := include_identity fs text p fuel h hf
  refine ⟨h1, ?_⟩
  intro fs2 p2 fuel2 e hf2 he
  have hte : e = text := by
    rw [h1] at he
    injection he with hh
    exact hh.symm
  subst hte
  exact include_identity fs2 e p2 fuel2 h hf2

theorem spec_C5_witness :
    include_external_files [] 1 "no refs here".data "/a/t.md" = .ok "no refs here".data ∧
    ∀ (fs2 : FS) (p2 : String) (fuel2 : Nat) (e : List Char), 0 < fuel2 →
      include_external_files [] 1 "no refs here".data "/a/t.md" = .ok e →
      include_external_files fs2 fuel2 e p2 = .ok e :=
  spec_C5 "no refs here".data [] "/a/t.md" 1 (by decide) (by decide)

/-- C6 as stated is false on the code for nested references: with
`/a/b/f1.md` present but its own reference `f2.md` missing, the
reference whose file cannot be opened resolves to `/a/b/f2.md`, yet the
error that reaches the caller names `/a/b/f1.md` — each unwinding level
catches the nested `FileNotFoundError` and re-raises it naming its own
fragment's resolved path. -/
theorem spec_C6_counterexample :
    include_external_files fsC6Nested 2 (fragRefText "b/f1.md".data) "/a/t.md" =
      .error (.missingFragment "/a/b/f1.md") ∧
    fsRead fsC6Nested (refTarget "/a/b/f1.md" "f2.md".data) = none ∧
    refTarget "/a/b/f1.md" "f2.md".data ≠ "/a/b/f1.md" := by
  decide

/-- C6 (amended): a fragment reference whose resolved target cannot be
opened raises `missingFragment` naming the resolved target path
(conjunct 1); while unwinding, each enclosing inclusion level catches a
nested `FileNotFoundError` and re-raises it naming its own fragment's
resolved path, so the error reaching the caller names the outermost
failing fragment (conjunct 2); the error then propagates unmodified
through `render_template` (conjunct 3), and a failing render produces
no write for the including template and aborts processing with that
error (conjunct 4). -/
theorem spec_C6 (r : List Char) (base : String) (fs : FS) (fuel : Nat)
    (h : ∀ c ∈ r, c ≠ '\n' ∧ c ≠ '}' ∧ c ≠ ' ') :
    (fsRead fs (refTarget base r) = none →
      include_external_files fs (fuel + 1) (fragRefText r) base =
        .error (.missingFragment (refTarget base r))) ∧
    (∀ (c : List Char) (e : RenderError),
      fsRead fs (refTarget base r) = some c →
      include_external_files fs fuel c (refTarget base r) = .error e →
      isFileNotFoundError e = true →
      include_external_files fs (fuel + 1) (fragRefText r) base =
        .error (.missingFragment (refTarget base r))) ∧
    (∀ (fuel2 : Nat) (p : String) (vars : VarMap) (content : List Char) (e : RenderError),
      fsRead fs p = some content →
      include_external_files fs fuel2 content p = .error e →
      render_template fuel2 fs p vars = .error e) ∧
    (∀ (fuel2 : Nat) (vars : VarMap) (root out_root f : String) (rest : List String)
      (e : RenderError), matchesExt f = true →
      render_template fuel2 fs (joinPath root f) vars = .error e →
      processFiles fuel2 fs vars root out_root (f :: rest) = ([], some e)) := by
  refine ⟨?_, ?_, ?_, ?_⟩
  · intro hn
    rw [include_fragRefText fs r base fuel h, hn]
  · intro c e hc he hfnf
    rw [include_fragRefText fs r base fuel h, hc]
    show (match include_external_files fs fuel c (refTarget base r) with
        | .error e =>
          if isFileNotFoundError e then
            Except.error (RenderError.missingFragment (refTarget base r))
          else Except.error e
        | .ok inner => Except.ok inner) = .error (.missingFragment (refTarget base r))
    rw [he]
    show (if isFileNotFoundError e then
        Except.error (RenderError.missingFragment (refTarget base r))
      else Except.error e) = .error (.missingFragment (refTarget base r))
    rw [if_pos hfnf]
  · intro fuel2 p vars content e hr he
    exact render_propagates fuel2 fs p vars content e hr he
  · intro fuel2 vars root out_root f rest e hm he
    exact processFiles_error fuel2 fs vars root out_root f rest e hm he

theorem spec_C6_witness :
    include_external_files [] 1 (fragRefText "missing.md".data) "/a/t.md" =
      .error (.missingFragment (refTarget "/a/t.md" "missing.md".data)) ∧
    include_external_files fsC6Nested 2 (fragRefText "b/f1.md".data) "/a/t.md" =
      .error (.missingFragment (refTarget "/a/t.md" "b/f1.md".data)) ∧
    processFiles 1 [] [] "/a" "/out" ["t.md"] =
      ([], some (.missingTemplate "/a/t.md")) := by
  refine ⟨?_, ?_, ?_⟩
  · exact (spec_C6 "missing.md".data "/a/t.md" [] 0 (by decide)).1 (by decide)
  · exact (spec_C6 "b/f1.md".data "/a/t.md" fsC6Nested 1 (by decide)).2.1
      (fragRefText "f2.md".data) (.missingFragment "/a/b/f2.md") (by decide) (by decide)
      (by decide)
  · exact (spec_C6 "missing.md".data "/a/t.md" [] 0 (by decide)).2.2.2
      1 [] "/a" "/out" "t.md" [] (.missingTemplate "/a/t.md") (by decide) (by decide)

/-- C7 as stated is false on the code: `process_directory` invokes the
renderer not only on files with the `.md` documents extension — here a
`.yaml` file in the template tree is rendered and its output written. -/
theorem spec_C7_counterexample :
    process_directory 1 [("/t/sub/v.yaml", "hello".data)] [("/t/sub", ["v.yaml"])]
        "/t" "/out" [] =
      ([("/out/sub/v.yaml", "hello".data)], none) ∧
    strEndsWith "v.yaml" ".md" = false := by
  decide

/-- C7 (amended): the renderer is invoked exactly on the files ending in
`.md`, `.yaml` or `.yml`, and each output file is written under the
mirrored relative path with the filename (hence extension) unchanged. -/
theorem spec_C7 (fuel : Nat) (fs : FS) (vars : VarMap) (input_dir output_dir : String)
    (walk : List (String × List String))
    (h : (process_directory fuel fs walk input_dir output_dir vars).2 = none) :
    (process_directory fuel fs walk input_dir output_dir vars).1.map Prod.fst =
      walk.flatMap (fun e => (e.2.filter matchesExt).map
        (fun f => joinPath (joinPath output_dir (relpath e.1 input_dir)) f)) :=
  process_directory_writes fuel fs vars input_dir output_dir walk h

theorem spec_C7_witness :
    (process_directory 1 [("/t/sub/v.yaml", "hello".data)]
        [("/t/sub", ["v.yaml", "skip.txt"])] "/t" "/out" []).1.map Prod.fst =
      [("/t/sub", ["v.yaml", "skip.txt"])].flatMap (fun e => (e.2.filter matchesExt).map
        (fun f => joinPath (joinPath "/out" (relpath e.1 "/t")) f)) :=
  spec_C7 1 [("/t/sub/v.yaml", "hello".data)] [] "/t" "/out"
    [("/t/sub", ["v.yaml", "skip.txt"])] (by decide)

/-- C9: the resolver performs no cycle detection — on the self-including
`/a/x.md` every recursion budget is exhausted, the model of
non-termination — while on any filesystem admitting a decreasing
inclusion measure (an acyclic inclusion graph) the result never exhausts
a budget above the measure and is independent of it, i.e. resolution is
a total terminating function there. -/
theorem spec_C9 :
    (∀ fuel, include_external_files fsCycle fuel cycleText "/a/x.md" = .error .outOfFuel) ∧
    ∀ (fs : FS) (h : String → Nat), DecreasingMeasure fs h →
      ∀ fuel path content, fsRead fs path = some content → h path < fuel →
        include_external_files fs fuel content path ≠ .error .outOfFuel ∧
        ∀ fuel2, h path < fuel2 →
          include_external_files fs fuel content path =
            include_external_files fs fuel2 content path :=
  ⟨include_cycle, fun fs h hdec => include_stable fs h hdec⟩

theorem spec_C9_witness :
    include_external_files fsCycle 5 cycleText "/a/x.md" = .error .outOfFuel ∧
    include_external_files fsAcyclic 2 (fragRefText "a.md".data) "/p/t.md" ≠
      .error .outOfFuel ∧
    include_external_files fsAcyclic 2 (fragRefText "a.md".data) "/p/t.md" =
      include_external_files fsAcyclic 9 (fragRefText "a.md".data) "/p/t.md" := by
  have hdec : DecreasingMeasure fsAcyclic acyclicRank := by
    intro e he r hr hs
    rcases List.mem_cons.mp he with he1 | he2
    · subst he1
      have hr2 : r ∈ refsOf (fragRefText "a.md".data) := hr
      rw [show refsOf (fragRefText "a.md".data) = ["a.md".data] from by decide] at hr2
      rcases List.mem_singleton.mp hr2 with rfl
      decide
    · have he3 := List.mem_singleton.mp he2
      subst he3
      have hr2 : r ∈ refsOf ("A".data) := hr
      rw [show refsOf ("A".data) = ([] : List (List Char)) from by decide] at hr2
      cases hr2
  refine ⟨spec_C9.1 5, ?_, ?_⟩
  · exact (spec_C9.2 fsAcyclic acyclicRank hdec 2 "/p/t.md" (fragRefText "a.md".data)
      (by decide) (by decide)).1
  · exact (spec_C9.2 fsAcyclic acyclicRank hdec 2 "/p/t.md" (fragRefText "a.md".data)
      (by decide) (by decide)).2 9 (by decide)

theorem except_ok_bind {ε α β : Type} (x : α) (f : α → Except ε β) :
    (do let a ← (Except.ok x : Except ε α); f a) = f x := rfl

theorem except_error_bind {ε α β : Type} (e : ε) (f : α → Except ε β) :
    (do let a ← (Except.error e : Except ε α); f a) = Except.error e := rfl

theorem loadFiles_single (parse : List Char → ParseResult) (fs : FS) (root : String)
    (acc : VarMap) (f : String) (c : List Char) (m : List (String × String))
    (hy : isYamlFile f = true) (hr : fsRead fs (joinPath root f) = some c)
    (hp : parse c = .ok (.mapping m)) :
    loadFiles parse fs root acc [f] = .ok (dictUpdate acc m) := by
  simp only [loadFiles, hy, hr, hp, if_true]

/-- C4: `load_variables` folds the variable directories in argument
order, merging each parsed mapping by whole-mapping overwrite
(`dict.update`); hence when `dirA` and `dirB` both define key `k` and
the directories are given in order `[dirA, dirB]`, the loaded namespace
holds `dirB`'s value for `k`. -/
theorem spec_C4 (parse : List Char → ParseResult) (fs : FS)
    (dA dB rootA rootB fA fB : String) (cA cB : List Char)
    (mA mB : List (String × String)) (k vB : String)
    (hdA : dA ≠ "") (hdB : dB ≠ "")
    (hyA : isYamlFile fA = true) (hyB : isYamlFile fB = true)
    (hrA : fsRead fs (joinPath rootA fA) = some cA)
    (hrB : fsRead fs (joinPath rootB fB) = some cB)
    (hpA : parse cA = .ok (.mapping mA)) (hpB : parse cB = .ok (.mapping mB))
    (hk : lookupVar (dictUpdate [] mB) k = some vB) :
    load_variables parse fs [] [(dA, [(rootA, [fA])]), (dB, [(rootB, [fB])])] =
      .ok (dictUpdate (dictUpdate [] mA) mB) ∧
    lookupVar (dictUpdate (dictUpdate [] mA) mB) k = some vB := by
  have hfA : loadFiles parse fs rootA [] [fA] = .ok (dictUpdate [] mA) :=
    loadFiles_single parse fs rootA [] fA cA mA hyA hrA hpA
  have hfB : loadFiles parse fs rootB (dictUpdate [] mA) [fB] =
      .ok (dictUpdate (dictUpdate [] mA) mB) :=
    loadFiles_single parse fs rootB (dictUpdate [] mA) fB cB mB hyB hrB hpB
  constructor
  · simp only [load_variables, loadEntries, hdA, hdB, if_false, hfA, hfB,
      except_ok_bind, ite_false, if_neg, ne_eq, not_false_eq_true]
  · rw [lookupVar_dictUpdate, hk]

theorem spec_C4_witness :
    load_variables (fun c => if c = "k: 1".data then .ok (.mapping [("k", "1")])
        else .ok (.mapping [("k", "2")])) 
      [("/dA/a.yaml", "k: 1".data), ("/dB/b.yaml", "k: 2".data)] []
      [("/dA", [("/dA", ["a.yaml"])]), ("/dB", [("/dB", ["b.yaml"])])] =
      .ok (dictUpdate (dictUpdate [] [("k", "1")]) [("k", "2")]) ∧
    lookupVar (dictUpdate (dictUpdate [] [("k", "1")]) [("k", "2")]) "k" = some "2" :=
  spec_C4 (fun c => if c = "k: 1".data then .ok (.mapping [("k", "1")])
      else .ok (.mapping [("k", "2")]))
    [("/dA/a.yaml", "k: 1".data), ("/dB/b.yaml", "k: 2".data)]
    "/dA" "/dB" "/dA" "/dB" "a.yaml" "b.yaml" "k: 1".data "k: 2".data
    [("k", "1")] [("k", "2")] "k" "2"
    (by decide) (by decide) (by decide) (by decide) (by decide) (by decide)
    (by decide) (by decide) (by decide)

/-- C8: a variable-source file whose content fails to parse makes
`load_variables` fail with `invalidDataFile` naming exactly that file's
path, and through `run` the same error propagates unmodified to the top
level, halting the whole batch before any file is written. -/
theorem spec_C8 (parse : List Char → ParseResult) (fuel : Nat) (fs : FS)
    (isDir : String → Bool)
    (tdirs : List (String × List (String × List String)))
    (dv rootv fv : String) (cv : List Char) (out : String)
    (hchk : checkDirs isDir (tdirs.map (fun d => d.1) ++ [dv]) = none)
    (hdv : dv ≠ "") (hy : isYamlFile fv = true)
    (hr : fsRead fs (joinPath rootv fv) = some cv) (hp : parse cv = .failed) :
    load_variables parse fs [] [(dv, [(rootv, [fv])])] =
      .error (.invalidDataFile (joinPath rootv fv)) ∧
    run parse fuel fs isDir tdirs [(dv, [(rootv, [fv])])] out =
      ([], some (.invalidDataFile (joinPath rootv fv))) := by
  have hload : load_variables parse fs [] [(dv, [(rootv, [fv])])] =
      .error (.invalidDataFile (joinPath rootv fv)) := by
    simp only [load_variables, loadEntries, loadFiles, hdv, hy, hr, hp, if_true, if_false,
      ite_false, if_neg, ne_eq, not_false_eq_true, except_error_bind]
  refine ⟨hload, ?_⟩
  simp only [run, List.map_append, List.map_cons, List.map_nil, hchk, hload]

theorem spec_C8_witness :
    load_variables (fun _ => ParseResult.failed) [("/v/bad.yaml", "x: [".data)] []
      [("/v", [("/v", ["bad.yaml"])])] =
      .error (.invalidDataFile (joinPath "/v" "bad.yaml")) ∧
    run (fun _ => ParseResult.failed) 1 [("/v/bad.yaml", "x: [".data)] (fun _ => true)
      [] [("/v", [("/v", ["bad.yaml"])])] "/out" =
      ([], some (.invalidDataFile (joinPath "/v" "bad.yaml"))) :=
  spec_C8 (fun _ => ParseResult.failed) 1 [("/v/bad.yaml", "x: [".data)] (fun _ => true)
    [] "/v" "/v" "bad.yaml" "x: [".data "/out"
    (by decide) (by decide) (by decide) (by decide) (by decide)

/-- C10 as stated is false on the code: `dict.update` accepts a
non-mapping iterable of key/value pairs, so a syntactically valid data
file parsing to such a list (YAML `[[k, v]]`) merges with no error and
the load continues rather than aborting the run. -/
theorem spec_C10_counterexample :
    load_variables (fun _ => ParseResult.ok (.pairList [("k", "v")]))
      [("/v/pairs.yaml", "- [k, v]".data)] [] [("/v", [("/v", ["pairs.yaml"])])] =
      .ok [("k", "v")] ∧
    isMappingValue (.pairList [("k", "v")]) = false := by
  decide

/-- C10 (amended): `load_variables` accepts exactly what `dict.update`
can consume — a non-mapping iterable of key/value pairs merges like a
mapping and the load continues (conjunct 1) — while a parse result
`update` cannot iterate as pairs aborts the whole run with an uncaught
path-less error carrying no `invalidDataFile`-style diagnostic naming
the file: `TypeError` for null, as from an empty file (conjunct 2),
`ValueError` for a non-empty scalar string (conjunct 3, 4, 5). -/
theorem spec_C10 (parse : List Char → ParseResult) (fuel : Nat) (fs : FS)
    (isDir : String → Bool)
    (tdirs : List (String × List (String × List String)))
    (d root f : String) (c : List Char) (out : String)
    (hchk : checkDirs isDir (tdirs.map (fun e => e.1) ++ [d]) = none)
    (hd : d ≠ "") (hy : isYamlFile f = true)
    (hr : fsRead fs (joinPath root f) = some c) :
    (∀ m, parse c = .ok (.pairList m) →
      load_variables parse fs [] [(d, [(root, [f])])] = .ok (dictUpdate [] m)) ∧
    (parse c = .ok .nullValue →
      load_variables parse fs [] [(d, [(root, [f])])] = .error .typeError ∧
      run parse fuel fs isDir tdirs [(d, [(root, [f])])] out = ([], some .typeError)) ∧
    (parse c = .ok .strValue →
      load_variables parse fs [] [(d, [(root, [f])])] = .error .valueError ∧
      run parse fuel fs isDir tdirs [(d, [(root, [f])])] out = ([], some .valueError)) ∧
    (∀ p : String, RenderError.typeError ≠ RenderError.invalidDataFile p) ∧
    (∀ p : String, RenderError.valueError ≠ RenderError.invalidDataFile p) := by
  refine ⟨?_, ?_, ?_, ?_, ?_⟩
  · intro m hp
    simp only [load_variables, loadEntries, loadFiles, hd, hy, hr, hp, if_true, if_false,
      ite_false, if_neg, ne_eq, not_false_eq_true, except_ok_bind]
  · intro hp
    have hload : load_variables parse fs [] [(d, [(root, [f])])] = .error .typeError := by
      simp only [load_variables, loadEntries, loadFiles, hd, hy, hr, hp, if_true, if_false,
        ite_false, if_neg, ne_eq, not_false_eq_true, except_error_bind]
    exact ⟨hload,
      by simp only [run, List.map_append, List.map_cons, List.map_nil, hchk, hload]⟩
  · intro hp
    have hload : load_variables parse fs [] [(d, [(root, [f])])] = .error .valueError := by
      simp only [load_variables, loadEntries, loadFiles, hd, hy, hr, hp, if_true, if_false,
        ite_false, if_neg, ne_eq, not_false_eq_true, except_error_bind]
    exact ⟨hload,
      by simp only [run, List.map_append, List.map_cons, List.map_nil, hchk, hload]⟩
  · intro p hc
    cases hc
  · intro p hc
    cases hc

theorem spec_C10_witness :
    load_variables (fun _ => ParseResult.ok (.pairList [("k", "v")]))
      [("/v/p.yaml", "- [k, v]".data)] [] [("/v", [("/v", ["p.yaml"])])] =
      .ok (dictUpdate [] [("k", "v")]) ∧
    (load_variables (fun _ => ParseResult.ok .nullValue) [("/v/empty.yaml", [])] []
        [("/v", [("/v", ["empty.yaml"])])] = .error .typeError ∧
      run (fun _ => ParseResult.ok .nullValue) 1 [("/v/empty.yaml", [])] (fun _ => true)
        [] [("/v", [("/v", ["empty.yaml"])])] "/out" = ([], some .typeError)) ∧
    (load_variables (fun _ => ParseResult.ok .strValue) [("/v/s.yaml", "abc".data)] []
        [("/v", [("/v", ["s.yaml"])])] = .error .valueError ∧
      run (fun _ => ParseResult.ok .strValue) 1 [("/v/s.yaml", "abc".data)] (fun _ => true)
        [] [("/v", [("/v", ["s.yaml"])])] "/out" = ([], some .valueError)) := by
  refine ⟨?_, ?_, ?_⟩
  · exact (spec_C10 (fun _ => ParseResult.ok (.pairList [("k", "v")])) 1
      [("/v/p.yaml", "- [k, v]".data)] (fun _ => true) [] "/v" "/v" "p.yaml"
      "- [k, v]".data "/out" (by decide) (by decide) (by decide) (by decide)).1
      [("k", "v")] rfl
  · exact (spec_C10 (fun _ => ParseResult.ok .nullValue) 1 [("/v/empty.yaml", [])]
      (fun _ => true) [] "/v" "/v" "empty.yaml" [] "/out"
      (by decide) (by decide) (by decide) (by decide)).2.1 rfl
  · exact (spec_C10 (fun _ => ParseResult.ok .strValue) 1 [("/v/s.yaml", "abc".data)]
      (fun _ => true) [] "/v" "/v" "s.yaml" "abc".data "/out"
      (by decide) (by decide) (by decide) (by decide)).2.2.1 rfl

-- Sanity checks of the scanner against the Python regex semantics.
example : dirname "/a/t.md" = "/a" := by decide
example : dirname "t.md" = "" := by decide
example : dirname "/a" = "/" := by decide
example : joinPath "/a" "b/f1.md" = "/a/b/f1.md" := by decide
example : joinPath "/a" "/abs.md" = "/abs.md" := by decide
example : relpath "/t/sub" "/t" = "sub" := by decide
example : relpath "/t" "/t" = "." := by decide
example :
    scanFrags (['{', '{', '{', ' '] ++ "x.md".data ++ [' ', '}', '}', '}']) =
      [.ref "x.md".data] := by decide
example :
    scanFrags ("a ".data ++ ['{', '{', '{', ' ', ' '] ++ "b c".data ++ ['}', '}', '}'] ++ "d".data) =
      [.lit 'a', .lit ' ', .ref "b c".data, .lit 'd'] := by decide
example : scanFrags ("no refs here".data) = ("no refs here".data.map .lit) := by decide
example :
    include_external_files [("/a/b.md", "B".data)] 2
      (['{', '{', '{', ' '] ++ "b.md".data ++ [' ', '}', '}', '}']) "/a/t.md" = .ok "B".data := by
  decide

-- Sanity checks for the second chunk.
example : scanVars "Hello, {{ name }} and {{ other }}!".data = ["name".data, "other".data] := by
  decide
example : find_template_variables "{{ a }} {{ b }} {{ a }}".data = ["a", "b"] := by decide
example :
    substVars [("name", "John Doe")] "Hello, {{ name }} and {{ undefined_variable }}!".data =
      "Hello, John Doe and !".data := by decide
example :
    render_template 1 [("t.md", "# Test\n\n{{ var1 }}".data)] "t.md" [("var1", "This is a test.")] =
      .ok { output := "# Test\n\nThis is a test.".data, warning := none } := by decide
example :
    render_template 1 [("dummy_path", "Hello, {{ name }} and {{ undefined_variable }}!".data)]
      "dummy_path" [("name", "John Doe")] =
      .ok { output := "Hello, John Doe and !".data,
            warning := some ("dummy_path", ["undefined_variable"]) } := by decide
